import Mathlib

/-!
# Verification of the lariba-cloud authorization and credential-lifecycle core

Shallow embedding of the parts of the codebase that the specification's
claims are about:

* `src/api/organization_invites.py` — invite creation / rotation (resend) /
  acceptance / revocation, with its local `require_org_role` helper;
* `src/services/rbac.py` — `require_org_role`, `require_project_role`;
* `src/services/api_keys.py` — `hash_api_key` (HMAC with server pepper);
* `src/api/api_keys.py` — `get_project_and_key_from_api_key`,
  `revoke_api_key`;
* `src/api/organizations.py` — `add_member`;
* `src/api/projects.py` — `add_project_member`,
  `update_project_member_role` with their permission helpers.

Conventions of the embedding:

* UUIDs are modelled as `Nat`, UTC instants as `Int` (seconds);
  `timedelta(days = 7)` is `7 * 86400`.
* The SQLAlchemy session is a record of lists (`DB`); `query(...).first()`
  is `List.find?`; ORM mutation of the row returned by `.first()` followed
  by `commit()` is `updateFirst`; `db.add` of a new row is list append.
  A FastAPI handler that raises `HTTPException` is a function into
  `Except HTTPError`; an error means the surrounding transaction aborts
  with no state change, so the `DB` is only returned on success.
* The external cryptographic primitives (`hashlib.sha256` hex digest and
  `hmac.new(..., sha256)` hex digest) are out-of-scope collaborators; they
  are passed as explicit function parameters `sha256hex : String → String`
  and `hmacSha256 : String → String → String` (key, message).
  `secrets.token_urlsafe` and `uuid4` are nondeterministic; each operation
  takes the fresh random string / id as an explicit parameter.
* Structure fields keep the source column names (camel-cased); columns
  never read or written by any modelled operation are omitted.  The
  `token_prefix` / `key_prefix` columns are called `tokenPref` / `keyPref`
  here.
-/

/-- Model of `fastapi.HTTPException(status_code, detail)`. -/
structure HTTPError where
  status : Nat
  detail : String
  deriving DecidableEq, Repr

/-- Model of `src/models/user.py` (`name`, `password_hash` unused by modelled code). -/
structure User where
  id : Nat
  email : String
  deriving DecidableEq, Repr

/-- Model of `src/models/organization.py` (`name`, `slug`, `created_at` unused). -/
structure Organization where
  id : Nat
  ownerId : Nat
  deriving DecidableEq, Repr

/-- Model of `src/models/organization_member.py` (`id`, `created_at` unused). -/
structure OrganizationMember where
  organizationId : Nat
  userId : Nat
  role : String
  deriving DecidableEq, Repr

/-- Model of `src/models/project.py` (`name`, `slug`, `created_at` unused). -/
structure Project where
  id : Nat
  organizationId : Nat
  ownerId : Nat
  deriving DecidableEq, Repr

/-- Model of `src/models/project_member.py` (`created_at` unused). -/
structure ProjectMember where
  projectId : Nat
  userId : Nat
  role : String
  deriving DecidableEq, Repr

/-- Model of `src/models/api_key.py` (`name` unused). -/
structure ApiKey where
  id : Nat
  projectId : Nat
  keyPref : String
  keyHash : String
  scope : String
  createdAt : Int
  lastUsedAt : Option Int
  expiresAt : Option Int
  revokedAt : Option Int
  deriving DecidableEq, Repr

/-- Model of `src/models/organization_invite.py`. -/
structure OrganizationInvite where
  id : Nat
  organizationId : Nat
  email : String
  role : String
  status : String
  tokenPref : String
  tokenHash : String
  expiresAt : Int
  invitedByUserId : Option Nat
  acceptedByUserId : Option Nat
  createdAt : Int
  acceptedAt : Option Int
  revokedAt : Option Int
  deriving DecidableEq, Repr

/-- The relational store: one list per table. -/
structure DB where
  users : List User
  organizations : List Organization
  orgMembers : List OrganizationMember
  projects : List Project
  projectMembers : List ProjectMember
  apiKeys : List ApiKey
  invites : List OrganizationInvite
  deriving DecidableEq, Repr

/-- Mutate the first element satisfying `q` (the row returned by
`query(...).first()`) and leave the rest unchanged, as an ORM
attribute-assignment followed by `commit()` does. -/
def updateFirst (q : α → Bool) (f : α → α) : List α → List α
  | [] => []
  | a :: l => if q a then f a :: l else a :: updateFirst q f l

/-- Model of `hmac.compare_digest` on two hex digests: timing aside, equality. -/
def compare_digest (a b : String) : Bool := a == b

/-- Model of Python `str.lower()`, character by character (structural, so
that concrete witnesses evaluate inside the kernel). -/
def lower (s : String) : String := ⟨s.data.map Char.toLower⟩

/-- Model of Python `str.strip()`: drop leading and trailing whitespace. -/
def strip (s : String) : String :=
  ⟨((s.data.dropWhile Char.isWhitespace).reverse.dropWhile
      Char.isWhitespace).reverse⟩

/-- Model of Python slicing `s[:n]` (by characters). -/
def takeChars (s : String) (n : Nat) : String := ⟨s.data.take n⟩

namespace OrgInvites

/-! Embedding of `src/api/organization_invites.py`. -/

def INVITE_TTL_DAYS : Int := 7

/-- Model of `timedelta(days=INVITE_TTL_DAYS)` in seconds. -/
def inviteTtl : Int := INVITE_TTL_DAYS * 86400

/-- Model of `normalize_email`: `email.strip().lower()`. -/
def normalize_email (email : String) : String := lower (strip email)

/-- Model of `hash_token`: `hashlib.sha256(token.encode("utf-8")).hexdigest()`.
The SHA-256 primitive is the explicit parameter `sha256hex`; note that no
server secret enters this function. -/
def hash_token (sha256hex : String → String) (token : String) : String :=
  sha256hex token

/-- The local `require_org_role` helper of `organization_invites.py`
(distinct from the one in `services/rbac.py`). -/
def require_org_role (db : DB) (organizationId : Nat) (user : User)
    (requiredRole : String) : Except HTTPError Organization :=
  match db.organizations.find? (fun o => o.id == organizationId) with
  | none => .error ⟨404, "Organization not found"⟩
  | some org =>
    if org.ownerId == user.id then .ok org
    else
      match db.orgMembers.find? (fun m =>
          m.organizationId == organizationId && m.userId == user.id) with
      | none => .error ⟨403, "Not an organization member"⟩
      | some member =>
        if requiredRole == "admin" && !(member.role == "admin" || member.role == "owner") then
          .error ⟨403, "Requires org role: admin"⟩
        else .ok org

/-- Model of `_rotate_token`: overwrite hash/prefix, reset expiry; returns the new
plaintext token together with the updated row. -/
def rotate_token (sha256hex : String → String) (inv : OrganizationInvite)
    (now : Int) (rand : String) : OrganizationInvite × String :=
  let plaintextToken := "oi_" ++ rand
  ({ inv with
      tokenHash := hash_token sha256hex plaintextToken
      tokenPref := takeChars plaintextToken 10
      expiresAt := now + inviteTtl },
   plaintextToken)

/-- The row `create_invite` inserts on success. -/
def newInvite (sha256hex : String → String) (newId organizationId : Nat)
    (emailNorm role : String) (user : User) (now : Int) (rand : String) :
    OrganizationInvite :=
  let plaintextToken := "oi_" ++ rand
  { id := newId
    organizationId := organizationId
    email := emailNorm
    role := role
    status := "pending"
    tokenPref := takeChars plaintextToken 10
    tokenHash := hash_token sha256hex plaintextToken
    expiresAt := now + inviteTtl
    invitedByUserId := some user.id
    createdAt := now
    acceptedByUserId := none
    acceptedAt := none
    revokedAt := none }

/-- The filter of the duplicate-pending-invite query in `create_invite`. -/
def isPendingFor (organizationId : Nat) (email : String)
    (i : OrganizationInvite) : Bool :=
  i.organizationId == organizationId && i.email == email && i.status == "pending"

/-- Model of `create_invite` route handler.  On success returns the new state, the
inserted row and the plaintext token (returned once). -/
def create_invite (sha256hex : String → String) (db : DB)
    (organizationId : Nat) (email role : String) (currentUser : User)
    (now : Int) (rand : String) (newId : Nat) :
    Except HTTPError (DB × OrganizationInvite × String) :=
  match require_org_role db organizationId currentUser "admin" with
  | .error e => .error e
  | .ok _org =>
    let emailNorm := normalize_email email
    let existingMember : Option OrganizationMember :=
      match db.users.find? (fun u => u.email == emailNorm) with
      | none => none
      | some userRow =>
        db.orgMembers.find? (fun m =>
          m.organizationId == organizationId && m.userId == userRow.id)
    match existingMember with
    | some _ => .error ⟨409, "User is already an organization member"⟩
    | none =>
      match db.invites.find? (isPendingFor organizationId emailNorm) with
      | some _ => .error ⟨409, "Pending invite already exists"⟩
      | none =>
        let inv := newInvite sha256hex newId organizationId emailNorm role
                     currentUser now rand
        .ok ({ db with invites := db.invites ++ [inv] }, inv,
             "oi_" ++ rand)

/-- Model of `resend_invite` route handler: rotates the token of a pending invite. -/
def resend_invite (sha256hex : String → String) (db : DB) (inviteId : Nat)
    (currentUser : User) (now : Int) (rand : String) :
    Except HTTPError (DB × OrganizationInvite × String) :=
  match db.invites.find? (fun i => i.id == inviteId) with
  | none => .error ⟨404, "Invite not found"⟩
  | some inv =>
    match require_org_role db inv.organizationId currentUser "admin" with
    | .error e => .error e
    | .ok _org =>
      if inv.status != "pending" then
        .error ⟨409, "Invite is " ++ inv.status⟩
      else
        let rotated := rotate_token sha256hex inv now rand
        let invites' := updateFirst (fun i => i.id == inviteId)
          (fun i => (rotate_token sha256hex i now rand).1) db.invites
        .ok ({ db with invites := invites' }, rotated.1, rotated.2)

/-- The invite-row mutation performed by a successful `accept_invite`. -/
def acceptUpdate (user : User) (now : Int) (i : OrganizationInvite) :
    OrganizationInvite :=
  { i with status := "accepted", acceptedByUserId := some user.id,
           acceptedAt := some now }

/-- The membership table after a successful `accept_invite`: insert a row
only when the accepting user has none for the invite's organization. -/
def acceptMembers (db : DB) (inv : OrganizationInvite) (user : User) :
    List OrganizationMember :=
  match db.orgMembers.find? (fun m =>
      m.organizationId == inv.organizationId && m.userId == user.id) with
  | some _ => db.orgMembers
  | none =>
    db.orgMembers ++
      [{ organizationId := inv.organizationId
         userId := user.id
         role := if inv.role == "admin" then "admin" else "member" }]

/-- Model of `accept_invite` route handler. -/
def accept_invite (sha256hex : String → String) (db : DB) (inviteId : Nat)
    (token : String) (currentUser : User) (now : Int) :
    Except HTTPError (DB × OrganizationInvite) :=
  match db.invites.find? (fun i => i.id == inviteId) with
  | none => .error ⟨404, "Invite not found"⟩
  | some inv =>
    -- Token validation FIRST (prevents state leaks)
    if !compare_digest (hash_token sha256hex token) inv.tokenHash then
      .error ⟨403, "Invalid invite token"⟩
    else if inv.status != "pending" then
      .error ⟨409, "Invite is " ++ inv.status⟩
    else if inv.expiresAt ≤ now then
      .error ⟨410, "Invite expired"⟩
    else if lower inv.email != lower currentUser.email then
      .error ⟨403, "Invite email does not match your account"⟩
    else
      let invites' := updateFirst (fun i => i.id == inviteId)
        (acceptUpdate currentUser now) db.invites
      .ok ({ db with orgMembers := acceptMembers db inv currentUser,
                     invites := invites' },
           acceptUpdate currentUser now inv)

/-- Model of `revoke_invite` route handler. -/
def revoke_invite (db : DB) (inviteId : Nat) (currentUser : User)
    (now : Int) : Except HTTPError (DB × OrganizationInvite) :=
  match db.invites.find? (fun i => i.id == inviteId) with
  | none => .error ⟨404, "Invite not found"⟩
  | some inv =>
    match require_org_role db inv.organizationId currentUser "admin" with
    | .error e => .error e
    | .ok _org =>
      if inv.status != "pending" then
        .error ⟨409, "Invite is " ++ inv.status⟩
      else
        let invites' := updateFirst (fun i => i.id == inviteId)
          (fun i => { i with status := "revoked", revokedAt := some now })
          db.invites
        .ok ({ db with invites := invites' },
             { inv with status := "revoked", revokedAt := some now })

end OrgInvites

namespace Rbac

/-! Embedding of `src/services/rbac.py`. -/

/-- Model of `ORG_ROLE_ORDER.get(role, 0)`: `{"member": 1, "admin": 2, "owner": 3}`.
The source indexes the dict with `[min_role]`, which raises on an unknown
key; callers only ever pass the enumerated literals, and theorems about
unknown `min_role` values restrict to the enumeration accordingly. -/
def ORG_ROLE_ORDER (role : String) : Nat :=
  if role == "member" then 1
  else if role == "admin" then 2
  else if role == "owner" then 3
  else 0

/-- Model of `PROJECT_ROLE_ORDER.get(role, 0)`: `{"member": 1, "admin": 2}`. -/
def PROJECT_ROLE_ORDER (role : String) : Nat :=
  if role == "member" then 1
  else if role == "admin" then 2
  else 0

/-- Model of `require_org_role` of `services/rbac.py`. -/
def require_org_role (db : DB) (orgId : Nat) (currentUser : User)
    (minRole : String) : Except HTTPError Organization :=
  match db.organizations.find? (fun o => o.id == orgId) with
  | none => .error ⟨404, "Organization not found"⟩
  | some org =>
    -- Owner always passes
    if org.ownerId == currentUser.id then .ok org
    else
      match db.orgMembers.find? (fun m =>
          m.organizationId == orgId && m.userId == currentUser.id) with
      | none => .error ⟨403, "Not an organization member"⟩
      | some membership =>
        if ORG_ROLE_ORDER membership.role < ORG_ROLE_ORDER minRole then
          .error ⟨403, "Requires org role: " ++ minRole⟩
        else .ok org

/-- Model of `require_project_role` of `services/rbac.py`.  `project.organization`
is the relationship lookup by `project.organization_id`. -/
def require_project_role (db : DB) (projectId : Nat) (currentUser : User)
    (minRole : String) : Except HTTPError Project :=
  match db.projects.find? (fun p => p.id == projectId) with
  | none => .error ⟨404, "Project not found"⟩
  | some project =>
    -- If you own the org, you are effectively admin everywhere
    match db.organizations.find? (fun o => o.id == project.organizationId) with
    | some org =>
      if org.ownerId == currentUser.id then .ok project
      else
        match db.projectMembers.find? (fun m =>
            m.projectId == projectId && m.userId == currentUser.id) with
        | none => .error ⟨403, "Not a project member"⟩
        | some member =>
          if PROJECT_ROLE_ORDER member.role < PROJECT_ROLE_ORDER minRole then
            .error ⟨403, "Requires project role: " ++ minRole⟩
          else .ok project
    | none =>
      match db.projectMembers.find? (fun m =>
          m.projectId == projectId && m.userId == currentUser.id) with
      | none => .error ⟨403, "Not a project member"⟩
      | some member =>
        if PROJECT_ROLE_ORDER member.role < PROJECT_ROLE_ORDER minRole then
          .error ⟨403, "Requires project role: " ++ minRole⟩
        else .ok project

end Rbac

namespace Orgs

/-! Embedding of the member-management route of `src/api/organizations.py`. -/

/-- Model of `add_member` route handler.  Note: no validation of `role`. -/
def add_member (db : DB) (organizationId : Nat) (targetUserId : Nat)
    (role : String) (currentUser : User) :
    Except HTTPError (DB × String) :=
  match db.organizations.find? (fun o => o.id == organizationId) with
  | none => .error ⟨404, "Organization not found"⟩
  | some org =>
    if org.ownerId != currentUser.id then
      .error ⟨403, "Only org owner can add members"⟩
    else
      match db.orgMembers.find? (fun m =>
          m.organizationId == organizationId && m.userId == targetUserId) with
      | some _ => .ok (db, "User already a member")
      | none =>
        .ok ({ db with orgMembers := db.orgMembers ++
                 [{ organizationId := organizationId
                    userId := targetUserId
                    role := role }] },
             "Member added")

end Orgs

namespace Projects

/-! Embedding of the member-management routes of `src/api/projects.py`. -/

/-- Model of `require_org_admin` helper: org owner or member with role owner/admin. -/
def require_org_admin (db : DB) (org : Organization) (user : User) :
    Except HTTPError Unit :=
  if org.ownerId == user.id then .ok ()
  else
    match db.orgMembers.find? (fun m =>
        m.organizationId == org.id && m.userId == user.id) with
    | none => .error ⟨403, "Not an organization member"⟩
    | some membership =>
      if !(membership.role == "owner" || membership.role == "admin") then
        .error ⟨403, "Requires org role: admin"⟩
      else .ok ()

/-- Model of `require_project_admin_or_org_admin` helper. -/
def require_project_admin_or_org_admin (db : DB) (project : Project)
    (user : User) : Except HTTPError Unit :=
  let pm := db.projectMembers.find? (fun m =>
    m.projectId == project.id && m.userId == user.id)
  match pm with
  | some member =>
    if member.role == "admin" then .ok ()
    else
      match db.organizations.find? (fun o => o.id == project.organizationId) with
      | none => .error ⟨404, "Organization not found"⟩
      | some org => require_org_admin db org user
  | none =>
    match db.organizations.find? (fun o => o.id == project.organizationId) with
    | none => .error ⟨404, "Organization not found"⟩
    | some org => require_org_admin db org user

/-- Model of `add_project_member` route handler.  Validates `role` up front. -/
def add_project_member (db : DB) (projectId : Nat) (targetUserId : Nat)
    (role : String) (currentUser : User) :
    Except HTTPError (DB × ProjectMember) :=
  if !(role == "admin" || role == "member") then
    .error ⟨400, "Invalid role"⟩
  else
    match db.projects.find? (fun p => p.id == projectId) with
    | none => .error ⟨404, "Project not found"⟩
    | some project =>
      match require_project_admin_or_org_admin db project currentUser with
      | .error e => .error e
      | .ok _ =>
        match db.users.find? (fun u => u.id == targetUserId) with
        | none => .error ⟨404, "User not found"⟩
        | some _target =>
          let targetOrgMembership := db.orgMembers.find? (fun m =>
            m.organizationId == project.organizationId && m.userId == targetUserId)
          match db.organizations.find? (fun o => o.id == project.organizationId) with
          | none => .error ⟨404, "Organization not found"⟩
          | some org =>
            if !(org.ownerId == targetUserId || targetOrgMembership.isSome) then
              .error ⟨403, "User is not in the organization"⟩
            else
              match db.projectMembers.find? (fun m =>
                  m.projectId == projectId && m.userId == targetUserId) with
              | some existing => .ok (db, existing)  -- idempotent
              | none =>
                let pm : ProjectMember :=
                  { projectId := projectId, userId := targetUserId, role := role }
                .ok ({ db with projectMembers := db.projectMembers ++ [pm] }, pm)

/-- Model of `update_project_member_role` route handler.  Validates `role` up front. -/
def update_project_member_role (db : DB) (projectId : Nat) (userId : Nat)
    (role : String) (currentUser : User) :
    Except HTTPError (DB × ProjectMember) :=
  if !(role == "admin" || role == "member") then
    .error ⟨400, "Invalid role"⟩
  else
    match db.projects.find? (fun p => p.id == projectId) with
    | none => .error ⟨404, "Project not found"⟩
    | some project =>
      match require_project_admin_or_org_admin db project currentUser with
      | .error e => .error e
      | .ok _ =>
        match db.projectMembers.find? (fun m =>
            m.projectId == projectId && m.userId == userId) with
        | none => .error ⟨404, "Project member not found"⟩
        | some pm =>
          let pms := updateFirst
            (fun m => m.projectId == projectId && m.userId == userId)
            (fun m => { m with role := role }) db.projectMembers
          .ok ({ db with projectMembers := pms }, { pm with role := role })

end Projects

namespace ApiKeys

/-! Embedding of `src/services/api_keys.py` and the machine-auth and
revocation routes of `src/api/api_keys.py`. -/

/-- Model of `hash_api_key`: `hmac.new(API_KEY_PEPPER, raw_key, sha256).hexdigest()`.
The HMAC primitive is the explicit parameter `hmacSha256 key msg`; the
server-held pepper is its key, so the digest depends on both. -/
def hash_api_key (hmacSha256 : String → String → String) (pepper : String)
    (rawKey : String) : String :=
  hmacSha256 pepper rawKey

/-- Model of `get_project_and_key_from_api_key` dependency (machine auth). -/
def get_project_and_key_from_api_key (hmacSha256 : String → String → String)
    (pepper : String) (xApiKey : Option String) (db : DB) (now : Int) :
    Except HTTPError (DB × Project × ApiKey) :=
  match xApiKey with
  | none => .error ⟨401, "Missing X-API-Key"⟩
  | some raw =>
    if raw == "" then .error ⟨401, "Missing X-API-Key"⟩
    else
      let hashed := hash_api_key hmacSha256 pepper raw
      match db.apiKeys.find? (fun k => k.keyHash == hashed) with
      | none => .error ⟨401, "Invalid API key"⟩
      | some key =>
        if key.revokedAt.isSome then .error ⟨401, "API key revoked"⟩
        else if (match key.expiresAt with
                 | some e => decide (e ≤ now)
                 | none => false) then
          .error ⟨401, "API key expired"⟩
        else
          match db.projects.find? (fun p => p.id == key.projectId) with
          | none => .error ⟨401, "Project not found"⟩
          | some project =>
            -- best-effort last_used_at update
            let keys' := updateFirst (fun k => k.keyHash == hashed)
              (fun k => { k with lastUsedAt := some now }) db.apiKeys
            .ok ({ db with apiKeys := keys' }, project,
                 { key with lastUsedAt := some now })

/-- Model of `revoke_api_key` route handler. -/
def revoke_api_key (db : DB) (apiKeyId : Nat) (currentUser : User)
    (now : Int) : Except HTTPError (DB × String) :=
  match db.apiKeys.find? (fun k => k.id == apiKeyId) with
  | none => .error ⟨404, "API key not found"⟩
  | some key =>
    match Rbac.require_project_role db key.projectId currentUser "admin" with
    | .error e => .error e
    | .ok _ =>
      if key.revokedAt.isSome then
        .ok (db, "API key already revoked")
      else
        let keys' := updateFirst (fun k => k.id == apiKeyId)
          (fun k => { k with revokedAt := some now }) db.apiKeys
        .ok ({ db with apiKeys := keys' }, "API key revoked successfully")

end ApiKeys

/-! ## Helper definitions and lemmas for the verification -/

/-- Extract the raised `HTTPError` of a handler result, if any. -/
def resultError : Except HTTPError α → Option HTTPError
  | .error e => some e
  | .ok _ => none

/-- Specification-side description of the `accept_invite` checks, written
from the spec's words: the checks run in exactly the order (1) existence,
(2) token hash match, (3) `status == pending`, (4) `expires_at > now`,
(5) case-insensitive email match, and the produced error is that of the
first failing check (`none` when all five pass). -/
def acceptCheckError (sha256hex : String → String) (db : DB)
    (inviteId : Nat) (token : String) (currentUser : User) (now : Int) :
    Option HTTPError :=
  match db.invites.find? (fun i => i.id == inviteId) with
  | none => some ⟨404, "Invite not found"⟩
  | some inv =>
    if OrgInvites.hash_token sha256hex token = inv.tokenHash then
      if inv.status = "pending" then
        if now < inv.expiresAt then
          if lower inv.email = lower currentUser.email then none
          else some ⟨403, "Invite email does not match your account"⟩
        else some ⟨410, "Invite expired"⟩
      else some ⟨409, "Invite is " ++ inv.status⟩
    else some ⟨403, "Invalid invite token"⟩

theorem find?_updateFirst_pos {α : Type} (q : α → Bool) (f : α → α)
    (l : List α) (x : α) (h : l.find? q = some x) (hf : q (f x) = true) :
    (updateFirst q f l).find? q = some (f x) := by
  induction l with
  | nil => simp [List.find?] at h
  | cons a l ih =>
    by_cases ha : q a = true
    · rw [List.find?_cons_of_pos _ ha] at h
      cases h
      simp [updateFirst, ha, List.find?_cons_of_pos _ hf]
    · have ha' : q a = false := by simpa using ha
      rw [List.find?_cons_of_neg _ (by simp [ha'])] at h
      simp only [updateFirst, ha', if_false, Bool.false_eq_true]
      rw [List.find?_cons_of_neg _ (by simp [ha'])]
      exact ih h

theorem length_filter_updateFirst_le {α : Type} (p q : α → Bool) (f : α → α)
    (l : List α) (h : ∀ x, p (f x) = true → p x = true) :
    ((updateFirst q f l).filter p).length ≤ (l.filter p).length := by
  induction l with
  | nil => simp [updateFirst]
  | cons a l ih =>
    by_cases ha : q a = true
    · simp only [updateFirst, ha, if_true]
      by_cases hpf : p (f a) = true
      · simp [List.filter_cons, hpf, h a hpf]
      · have : p (f a) = false := by simpa using hpf
        simp only [List.filter_cons, this, Bool.false_eq_true, if_false]
        by_cases hp : p a = true
        · simp [hp]
        · have : p a = false := by simpa using hp
          simp [this]
    · have ha' : q a = false := by simpa using ha
      simp only [updateFirst, ha', Bool.false_eq_true, if_false]
      by_cases hp : p a = true
      · simp [List.filter_cons, hp]; omega
      · have : p a = false := by simpa using hp
        simp [List.filter_cons, this]; exact ih

theorem find?_eq_none_filter_nil {α : Type} (p : α → Bool) (l : List α)
    (h : l.find? p = none) : l.filter p = [] := by
  rw [List.filter_eq_nil_iff]
  intro a ha
  exact fun hp => by simpa using (List.find?_eq_none.mp h) a ha hp

theorem accept_resultError_eq (sha256hex : String → String) (db : DB)
    (inviteId : Nat) (token : String) (u : User) (now : Int) :
    resultError (OrgInvites.accept_invite sha256hex db inviteId token u now) =
      acceptCheckError sha256hex db inviteId token u now := by
  unfold OrgInvites.accept_invite acceptCheckError
  cases hfind : db.invites.find? (fun i => i.id == inviteId) with
  | none => simp [resultError]
  | some inv =>
    by_cases htok : OrgInvites.hash_token sha256hex token = inv.tokenHash
    · by_cases hst : inv.status = "pending"
      · rcases lt_or_le now inv.expiresAt with hexp | hexp
        · have hexp' : ¬ inv.expiresAt ≤ now := not_le.mpr hexp
          by_cases hem : lower inv.email = lower u.email <;>
            simp [resultError, compare_digest, htok, hst, hexp, hexp', hem]
        · have hexp' : ¬ now < inv.expiresAt := not_lt.mpr hexp
          simp [resultError, compare_digest, htok, hst, hexp, hexp']
      · simp [resultError, compare_digest, htok, hst]
    · simp [resultError, compare_digest, htok]

theorem accept_invite_error_of_check (sha256hex : String → String) (db : DB)
    (inviteId : Nat) (token : String) (u : User) (now : Int) (e : HTTPError)
    (h : acceptCheckError sha256hex db inviteId token u now = some e) :
    OrgInvites.accept_invite sha256hex db inviteId token u now = .error e := by
  have heq := accept_resultError_eq sha256hex db inviteId token u now
  rw [h] at heq
  cases hacc : OrgInvites.accept_invite sha256hex db inviteId token u now with
  | error e' => rw [hacc] at heq; simpa [resultError] using heq
  | ok r => rw [hacc] at heq; simp [resultError] at heq

/-- The exact success result of `accept_invite` (state and returned row). -/
def acceptResult (db : DB) (inviteId : Nat) (inv : OrganizationInvite)
    (u : User) (now : Int) : DB × OrganizationInvite :=
  let invites' := updateFirst (fun i => i.id == inviteId)
    (OrgInvites.acceptUpdate u now) db.invites
  ({ db with orgMembers := OrgInvites.acceptMembers db inv u,
             invites := invites' },
   OrgInvites.acceptUpdate u now inv)

/-- The state after a successful `resend_invite` on `inviteId`. -/
def rotateDb (sha256hex : String → String) (db : DB) (inviteId : Nat)
    (now : Int) (rand : String) : DB :=
  let invites' := updateFirst (fun i => i.id == inviteId)
    (fun i => (OrgInvites.rotate_token sha256hex i now rand).1) db.invites
  { db with invites := invites' }

theorem accept_invite_ok_eq (sha256hex : String → String) (db : DB)
    (inviteId : Nat) (token : String) (u : User) (now : Int)
    (inv : OrganizationInvite)
    (hfind : db.invites.find? (fun i => i.id == inviteId) = some inv)
    (htok : OrgInvites.hash_token sha256hex token = inv.tokenHash)
    (hst : inv.status = "pending")
    (hexp : now < inv.expiresAt)
    (hem : lower inv.email = lower u.email) :
    OrgInvites.accept_invite sha256hex db inviteId token u now =
      .ok (acceptResult db inviteId inv u now) := by
  have hexp' : ¬ inv.expiresAt ≤ now := not_le.mpr hexp
  unfold OrgInvites.accept_invite acceptResult
  rw [hfind]
  simp [compare_digest, htok, hst, hexp', hem]

theorem resend_invite_ok_eq (sha256hex : String → String) (db : DB)
    (inviteId : Nat) (u : User) (now : Int) (rand : String)
    (inv : OrganizationInvite) (org : Organization)
    (hfind : db.invites.find? (fun i => i.id == inviteId) = some inv)
    (hrole : OrgInvites.require_org_role db inv.organizationId u "admin" = .ok org)
    (hst : inv.status = "pending") :
    OrgInvites.resend_invite sha256hex db inviteId u now rand =
      .ok (rotateDb sha256hex db inviteId now rand,
           (OrgInvites.rotate_token sha256hex inv now rand).1, "oi_" ++ rand) := by
  unfold OrgInvites.resend_invite rotateDb
  rw [hfind]
  dsimp only
  rw [hrole]
  simp [hst, OrgInvites.rotate_token]

/-! ## Concrete scenario data used by witnesses and counterexamples -/

def uOwner : User := { id := 1, email := "owner@example.com" }

def uBob : User := { id := 2, email := "Bob@Example.com" }

def orgAcme : Organization := { id := 10, ownerId := 1 }

/-- A project whose `owner_id` (creator) is user 2, inside an organization
owned by user 1. -/
def projP : Project := { id := 20, organizationId := 10, ownerId := 2 }

/-- State with no membership rows at all: only ownership columns. -/
def dbOwnership : DB :=
  { users := [uOwner, uBob], organizations := [orgAcme], orgMembers := [],
    projects := [projP], projectMembers := [], apiKeys := [], invites := [] }

/-! ## C9 — organization owner passes every organization role check -/

/-- C9: for every organization `O` and user `U` with `U.id == O.owner_id`,
`require_org_role` (services/rbac.py) succeeds for every `min_role`
(in particular member / admin / owner), even when no `OrganizationMember`
row exists for `(O, U)`: the owner short-circuit precedes the membership
lookup and the rank comparison. -/
theorem org_owner_passes_any_min_role (db : DB) (orgId : Nat) (u : User)
    (minRole : String) (org : Organization)
    (hfind : db.organizations.find? (fun o => o.id == orgId) = some org)
    (hown : org.ownerId = u.id) :
    Rbac.require_org_role db orgId u minRole = .ok org := by
  unfold Rbac.require_org_role
  rw [hfind]
  simp [hown]

theorem org_owner_passes_any_min_role_witness :
    Rbac.require_org_role dbOwnership 10 uOwner "member" = .ok orgAcme ∧
    Rbac.require_org_role dbOwnership 10 uOwner "admin" = .ok orgAcme ∧
    Rbac.require_org_role dbOwnership 10 uOwner "owner" = .ok orgAcme :=
  ⟨org_owner_passes_any_min_role dbOwnership 10 uOwner "member" orgAcme rfl rfl,
   org_owner_passes_any_min_role dbOwnership 10 uOwner "admin" orgAcme rfl rfl,
   org_owner_passes_any_min_role dbOwnership 10 uOwner "owner" orgAcme rfl rfl⟩

/-! ## C4 — the project role check has no project-owner override -/

/-- C4 counterexample: in `dbOwnership`, user 2 is `projP.owner_id` but is
neither the owner of the project's organization nor a `ProjectMember`;
`require_project_role` rejects them with 403 even for `min_role`
"member", so being `Project.owner_id` does not satisfy the check. -/
theorem project_owner_override_cex :
    projP.ownerId = uBob.id ∧
    orgAcme.ownerId ≠ uBob.id ∧
    dbOwnership.projectMembers = [] ∧
    Rbac.require_project_role dbOwnership 20 uBob "member" =
      .error ⟨403, "Not a project member"⟩ := by
  refine ⟨rfl, by decide, rfl, by rfl⟩

/-- C4 amended: the standing override in `require_project_role` is
ownership of the project's organization, not `Project.owner_id`: for every
project `P` and user `U` owning `P`'s organization, every role check on
`P` passes for `U` with no `ProjectMember` row consulted; a user who is
merely `P.owner_id` receives Forbidden when they have no membership row
(see the counterexample). -/
theorem project_role_org_owner_override (db : DB) (projectId : Nat)
    (u : User) (minRole : String) (proj : Project) (org : Organization)
    (hp : db.projects.find? (fun p => p.id == projectId) = some proj)
    (ho : db.organizations.find? (fun o => o.id == proj.organizationId) = some org)
    (hown : org.ownerId = u.id) :
    Rbac.require_project_role db projectId u minRole = .ok proj := by
  unfold Rbac.require_project_role
  rw [hp]
  dsimp only
  rw [ho]
  simp [hown]

theorem project_role_org_owner_override_witness :
    Rbac.require_project_role dbOwnership 20 uOwner "admin" = .ok projP :=
  project_role_org_owner_override dbOwnership 20 uOwner "admin" projP orgAcme
    rfl rfl rfl

/-- Injective stand-in for the SHA-256 hex primitive in concrete scenarios. -/
def shaC (s : String) : String := "sha|" ++ s

/-- A pending invite for bob in organization 10, with token `oi_tok1`
hashed by `shaC`. -/
def invBob : OrganizationInvite :=
  { id := 30, organizationId := 10, email := "bob@example.com",
    role := "member", status := "pending", tokenPref := "oi_tok1",
    tokenHash := "sha|oi_tok1", expiresAt := 1000000,
    invitedByUserId := some 1, acceptedByUserId := none, createdAt := 0,
    acceptedAt := none, revokedAt := none }

/-- State with the pending invite `invBob` and no membership rows. -/
def dbInvite : DB :=
  { users := [uOwner, uBob], organizations := [orgAcme], orgMembers := [],
    projects := [], projectMembers := [], apiKeys := [], invites := [invBob] }

/-- Like `dbInvite` but bob already holds a membership row with role
"owner" in organization 10. -/
def dbInviteMember : DB :=
  { users := [uOwner, uBob], organizations := [orgAcme],
    orgMembers := [{ organizationId := 10, userId := 2, role := "owner" }],
    projects := [], projectMembers := [], apiKeys := [], invites := [invBob] }

/-! ## C2 — order of the accept checks and first-failure semantics -/

/-- C2: `accept_invite` runs its checks in exactly the order (1) existence
(404), (2) token hash match (403), (3) status pending (409 reporting the
current status), (4) expiry (410), (5) case-insensitive email match
(403), and raises the error of the first failing check —
`acceptCheckError` transliterates that sequence from the spec and the
handler's error is always exactly it (`none` meaning success).  In
particular, for an existing invite and a non-matching token the result is
Forbidden regardless of the invite's status, expiry or email. -/
theorem accept_invite_check_order (sha256hex : String → String) (db : DB)
    (inviteId : Nat) (token : String) (u : User) (now : Int) :
    resultError (OrgInvites.accept_invite sha256hex db inviteId token u now) =
      acceptCheckError sha256hex db inviteId token u now ∧
    (∀ inv, db.invites.find? (fun i => i.id == inviteId) = some inv →
      OrgInvites.hash_token sha256hex token ≠ inv.tokenHash →
      OrgInvites.accept_invite sha256hex db inviteId token u now =
        .error ⟨403, "Invalid invite token"⟩) := by
  constructor
  · exact accept_resultError_eq sha256hex db inviteId token u now
  · intro inv hfind htok
    apply accept_invite_error_of_check
    unfold acceptCheckError
    rw [hfind]
    simp [htok]

theorem accept_invite_check_order_witness :
    resultError (OrgInvites.accept_invite shaC dbInvite 30 "oi_bad" uBob 100) =
      acceptCheckError shaC dbInvite 30 "oi_bad" uBob 100 ∧
    OrgInvites.accept_invite shaC dbInvite 30 "oi_bad" uBob 100 =
      .error ⟨403, "Invalid invite token"⟩ :=
  ⟨(accept_invite_check_order shaC dbInvite 30 "oi_bad" uBob 100).1,
   (accept_invite_check_order shaC dbInvite 30 "oi_bad" uBob 100).2 invBob rfl
     (by decide)⟩

/-! ## C10 — accepting with an existing membership row is a frame rule -/

/-- C10: when `accept_invite` passes all five checks and the accepting
user already has an `OrganizationMember` row for the invite's
organization, the membership table is left exactly as it was (no new row,
the existing row's role not overwritten by the invite's role), every
other table except `invites` is untouched, and the invite still gets
`status = accepted`, `accepted_by_user_id` and `accepted_at`. -/
theorem accept_preserves_existing_membership (sha256hex : String → String)
    (db : DB) (inviteId : Nat) (token : String) (u : User) (now : Int)
    (inv : OrganizationInvite) (m : OrganizationMember)
    (hfind : db.invites.find? (fun i => i.id == inviteId) = some inv)
    (htok : OrgInvites.hash_token sha256hex token = inv.tokenHash)
    (hst : inv.status = "pending")
    (hexp : now < inv.expiresAt)
    (hem : lower inv.email = lower u.email)
    (hmem : db.orgMembers.find? (fun w =>
        w.organizationId == inv.organizationId && w.userId == u.id) = some m) :
    ∃ db' inv',
      OrgInvites.accept_invite sha256hex db inviteId token u now = .ok (db', inv') ∧
      db'.orgMembers = db.orgMembers ∧
      inv'.status = "accepted" ∧ inv'.acceptedByUserId = some u.id ∧
      inv'.acceptedAt = some now ∧
      db'.invites = updateFirst (fun i => i.id == inviteId)
        (OrgInvites.acceptUpdate u now) db.invites ∧
      db'.users = db.users ∧ db'.organizations = db.organizations ∧
      db'.projects = db.projects ∧ db'.projectMembers = db.projectMembers ∧
      db'.apiKeys = db.apiKeys := by
  refine ⟨_, _,
    accept_invite_ok_eq sha256hex db inviteId token u now inv hfind htok hst hexp hem,
    ?_, rfl, rfl, rfl, rfl, rfl, rfl, rfl, rfl, rfl⟩
  show OrgInvites.acceptMembers db inv u = db.orgMembers
  unfold OrgInvites.acceptMembers
  rw [hmem]

theorem accept_preserves_existing_membership_witness :
    ∃ db' inv',
      OrgInvites.accept_invite shaC dbInviteMember 30 "oi_tok1" uBob 100 =
        .ok (db', inv') ∧
      db'.orgMembers = dbInviteMember.orgMembers ∧
      inv'.status = "accepted" ∧ inv'.acceptedByUserId = some uBob.id ∧
      inv'.acceptedAt = some 100 ∧
      db'.invites = updateFirst (fun i => i.id == 30)
        (OrgInvites.acceptUpdate uBob 100) dbInviteMember.invites ∧
      db'.users = dbInviteMember.users ∧
      db'.organizations = dbInviteMember.organizations ∧
      db'.projects = dbInviteMember.projects ∧
      db'.projectMembers = dbInviteMember.projectMembers ∧
      db'.apiKeys = dbInviteMember.apiKeys :=
  accept_preserves_existing_membership shaC dbInviteMember 30 "oi_tok1" uBob
    100 invBob { organizationId := 10, userId := 2, role := "owner" }
    rfl rfl rfl (by decide) (by decide) rfl

/-! ## C1 — token rotation invalidates the old token -/

/-- C1: for a pending invite whose email matches the accepting user,
after `resend_invite` returns the fresh token `oi_ ++ rand` (distinct
from the previously issued `oldTok`), accepting with `oldTok` fails with
403 Forbidden, accepting with the new token succeeds and sets the status
to `accepted`, and a second accept with the same new token fails with 409
Conflict reporting the accepted status.  SHA-256 collision-freedom is
idealized as injectivity of the hash primitive. -/
theorem invite_token_rotation (sha256hex : String → String)
    (hinj : Function.Injective sha256hex)
    (db : DB) (inviteId : Nat) (inv : OrganizationInvite) (admin u : User)
    (org : Organization) (now1 now2 now3 : Int) (rand oldTok : String)
    (hfind : db.invites.find? (fun i => i.id == inviteId) = some inv)
    (hrole : OrgInvites.require_org_role db inv.organizationId admin "admin" = .ok org)
    (hst : inv.status = "pending")
    (hem : lower inv.email = lower u.email)
    (hold : oldTok ≠ "oi_" ++ rand)
    (hexp : now2 < now1 + OrgInvites.inviteTtl) :
    OrgInvites.resend_invite sha256hex db inviteId admin now1 rand =
      .ok (rotateDb sha256hex db inviteId now1 rand,
           (OrgInvites.rotate_token sha256hex inv now1 rand).1, "oi_" ++ rand) ∧
    OrgInvites.accept_invite sha256hex (rotateDb sha256hex db inviteId now1 rand)
        inviteId oldTok u now2 = .error ⟨403, "Invalid invite token"⟩ ∧
    OrgInvites.accept_invite sha256hex (rotateDb sha256hex db inviteId now1 rand)
        inviteId ("oi_" ++ rand) u now2 =
      .ok (acceptResult (rotateDb sha256hex db inviteId now1 rand) inviteId
             (OrgInvites.rotate_token sha256hex inv now1 rand).1 u now2) ∧
    (acceptResult (rotateDb sha256hex db inviteId now1 rand) inviteId
       (OrgInvites.rotate_token sha256hex inv now1 rand).1 u now2).2.status =
      "accepted" ∧
    OrgInvites.accept_invite sha256hex
        (acceptResult (rotateDb sha256hex db inviteId now1 rand) inviteId
           (OrgInvites.rotate_token sha256hex inv now1 rand).1 u now2).1
        inviteId ("oi_" ++ rand) u now3 =
      .error ⟨409, "Invite is accepted"⟩ := by
  have hq := List.find?_some hfind
  have hfind1 : (rotateDb sha256hex db inviteId now1 rand).invites.find?
      (fun i => i.id == inviteId) =
      some ((OrgInvites.rotate_token sha256hex inv now1 rand).1) :=
    find?_updateFirst_pos _ _ _ _ hfind hq
  refine ⟨resend_invite_ok_eq sha256hex db inviteId admin now1 rand inv org
    hfind hrole hst, ?_, ?_, rfl, ?_⟩
  · apply accept_invite_error_of_check
    unfold acceptCheckError
    rw [hfind1]
    have hne : OrgInvites.hash_token sha256hex oldTok ≠
        ((OrgInvites.rotate_token sha256hex inv now1 rand).1).tokenHash := by
      intro h
      exact hold (hinj h)
    simp [hne]
  · exact accept_invite_ok_eq sha256hex _ inviteId ("oi_" ++ rand) u now2 _
      hfind1 rfl hst hexp hem
  · have hfind2 : (acceptResult (rotateDb sha256hex db inviteId now1 rand)
        inviteId (OrgInvites.rotate_token sha256hex inv now1 rand).1 u
        now2).1.invites.find? (fun i => i.id == inviteId) =
        some (OrgInvites.acceptUpdate u now2
          ((OrgInvites.rotate_token sha256hex inv now1 rand).1)) :=
      find?_updateFirst_pos _ _ _ _ hfind1 hq
    apply accept_invite_error_of_check
    unfold acceptCheckError
    rw [hfind2]
    simp [OrgInvites.acceptUpdate, OrgInvites.hash_token,
      OrgInvites.rotate_token]

theorem invite_token_rotation_witness :
    OrgInvites.accept_invite (fun s => s)
        (rotateDb (fun s => s) dbInvite 30 0 "R2") 30 "oi_tok1" uBob 100 =
      .error ⟨403, "Invalid invite token"⟩ ∧
    OrgInvites.accept_invite (fun s => s)
        (acceptResult (rotateDb (fun s => s) dbInvite 30 0 "R2") 30
           (OrgInvites.rotate_token (fun s => s) invBob 0 "R2").1 uBob 100).1
        30 "oi_R2" uBob 200 = .error ⟨409, "Invite is accepted"⟩ := by
  have h := invite_token_rotation (fun s => s) (fun a b hab => hab) dbInvite
    30 invBob uOwner uBob orgAcme 0 100 200 "R2" "oi_tok1" rfl rfl rfl
    (by decide) (by decide) (by decide)
  exact ⟨h.2.1, h.2.2.2.2⟩

/-! ## C3 — API-key authentication decision -/

/-- The state after a successful machine authentication: the best-effort
`last_used_at` touch on the matched key. -/
def authOkDb (hmacSha256 : String → String → String) (pepper raw : String)
    (db : DB) (now : Int) : DB :=
  let keys' := updateFirst
    (fun k => k.keyHash == ApiKeys.hash_api_key hmacSha256 pepper raw)
    (fun k => { k with lastUsedAt := some now }) db.apiKeys
  { db with apiKeys := keys' }

theorem auth_reduce (hmacSha256 : String → String → String)
    (pepper raw : String) (db : DB) (now : Int) (K : ApiKey)
    (hraw : raw ≠ "")
    (hk : db.apiKeys.find? (fun k =>
        k.keyHash == ApiKeys.hash_api_key hmacSha256 pepper raw) = some K) :
    ApiKeys.get_project_and_key_from_api_key hmacSha256 pepper (some raw) db now =
      (if K.revokedAt.isSome then .error ⟨401, "API key revoked"⟩
       else if (match K.expiresAt with
                | some e => decide (e ≤ now)
                | none => false) then .error ⟨401, "API key expired"⟩
       else
         match db.projects.find? (fun p => p.id == K.projectId) with
         | none => .error ⟨401, "Project not found"⟩
         | some project =>
           .ok (authOkDb hmacSha256 pepper raw db now, project,
                { K with lastUsedAt := some now })) := by
  unfold ApiKeys.get_project_and_key_from_api_key authOkDb
  have hne : (raw == "") = false := by simp [hraw]
  simp only [hne, Bool.false_eq_true, if_false]
  rw [hk]

/-- C3: for a stored API key `K` whose project row exists, authenticating
with `K`'s plaintext succeeds exactly when `revoked_at` is null and
`expires_at` is null or in the future; otherwise the failure is 401
Unauthorized distinguishing "API key revoked" (revocation checked first)
from "API key expired", and a plaintext matching no stored hash yields
401 "Invalid API key".  The hypothesis `hk` says the hash lookup of `K`'s
plaintext returns `K` (the `key_hash` column is unique). -/
theorem api_key_auth_decision (hmacSha256 : String → String → String)
    (pepper raw : String) (db : DB) (now : Int) (K : ApiKey) (P : Project)
    (hraw : raw ≠ "")
    (hk : db.apiKeys.find? (fun k =>
        k.keyHash == ApiKeys.hash_api_key hmacSha256 pepper raw) = some K)
    (hp : db.projects.find? (fun p => p.id == K.projectId) = some P) :
    (K.revokedAt = none → (∀ e, K.expiresAt = some e → now < e) →
      ApiKeys.get_project_and_key_from_api_key hmacSha256 pepper (some raw) db now =
        .ok (authOkDb hmacSha256 pepper raw db now, P,
             { K with lastUsedAt := some now })) ∧
    (K.revokedAt ≠ none →
      ApiKeys.get_project_and_key_from_api_key hmacSha256 pepper (some raw) db now =
        .error ⟨401, "API key revoked"⟩) ∧
    (K.revokedAt = none → ∀ e, K.expiresAt = some e → e ≤ now →
      ApiKeys.get_project_and_key_from_api_key hmacSha256 pepper (some raw) db now =
        .error ⟨401, "API key expired"⟩) ∧
    (∀ raw2, raw2 ≠ "" →
      db.apiKeys.find? (fun k =>
        k.keyHash == ApiKeys.hash_api_key hmacSha256 pepper raw2) = none →
      ApiKeys.get_project_and_key_from_api_key hmacSha256 pepper (some raw2) db now =
        .error ⟨401, "Invalid API key"⟩) := by
  refine ⟨?_, ?_, ?_, ?_⟩
  · intro hrev hexp
    rw [auth_reduce hmacSha256 pepper raw db now K hraw hk]
    have h1 : K.revokedAt.isSome = false := by simp [hrev]
    have h2 : (match K.expiresAt with
               | some e => decide (e ≤ now)
               | none => false) = false := by
      cases hE : K.expiresAt with
      | none => rfl
      | some e => simpa using not_le.mpr (hexp e hE)
    rw [h1, h2]
    simp [hp]
  · intro hrev
    rw [auth_reduce hmacSha256 pepper raw db now K hraw hk]
    have h1 : K.revokedAt.isSome = true := Option.isSome_iff_ne_none.mpr hrev
    rw [h1]
    simp
  · intro hrev e hE hle
    rw [auth_reduce hmacSha256 pepper raw db now K hraw hk]
    have h1 : K.revokedAt.isSome = false := by simp [hrev]
    have h2 : (match K.expiresAt with
               | some e => decide (e ≤ now)
               | none => false) = true := by
      rw [hE]; simpa using hle
    rw [h1, h2]
    simp
  · intro raw2 hraw2 hnone
    unfold ApiKeys.get_project_and_key_from_api_key
    have hne : (raw2 == "") = false := by simp [hraw2]
    simp only [hne, Bool.false_eq_true, if_false]
    rw [hnone]

/-- Concrete HMAC stand-in for witnesses: tags key and message. -/
def hmacC (k m : String) : String := "hmac|" ++ k ++ "|" ++ m

def keyLive : ApiKey :=
  { id := 40, projectId := 20, keyPref := "lk_live_",
    keyHash := "hmac|pep|lk_live", scope := "default", createdAt := 0,
    lastUsedAt := none, expiresAt := some 1000, revokedAt := none }

def keyRevoked : ApiKey :=
  { id := 41, projectId := 20, keyPref := "lk_rev_",
    keyHash := "hmac|pep|lk_rev", scope := "default", createdAt := 0,
    lastUsedAt := none, expiresAt := some 1, revokedAt := some 5 }

def keyExpired : ApiKey :=
  { id := 42, projectId := 20, keyPref := "lk_exp_",
    keyHash := "hmac|pep|lk_exp", scope := "default", createdAt := 0,
    lastUsedAt := none, expiresAt := some 10, revokedAt := none }

def dbKeys : DB :=
  { users := [uOwner], organizations := [orgAcme], orgMembers := [],
    projects := [projP], projectMembers := [],
    apiKeys := [keyLive, keyRevoked, keyExpired], invites := [] }

theorem api_key_auth_decision_witness :
    ApiKeys.get_project_and_key_from_api_key hmacC "pep" (some "lk_live") dbKeys 100 =
      .ok (authOkDb hmacC "pep" "lk_live" dbKeys 100, projP,
           { keyLive with lastUsedAt := some 100 }) ∧
    ApiKeys.get_project_and_key_from_api_key hmacC "pep" (some "lk_rev") dbKeys 100 =
      .error ⟨401, "API key revoked"⟩ ∧
    ApiKeys.get_project_and_key_from_api_key hmacC "pep" (some "lk_exp") dbKeys 100 =
      .error ⟨401, "API key expired"⟩ ∧
    ApiKeys.get_project_and_key_from_api_key hmacC "pep" (some "lk_nope") dbKeys 100 =
      .error ⟨401, "Invalid API key"⟩ := by
  refine ⟨?_, ?_, ?_, ?_⟩
  · exact (api_key_auth_decision hmacC "pep" "lk_live" dbKeys 100 keyLive projP
      (by decide) rfl rfl).1 rfl
      (by intro e hE; simp [keyLive] at hE; omega)
  · exact (api_key_auth_decision hmacC "pep" "lk_rev" dbKeys 100 keyRevoked projP
      (by decide) rfl rfl).2.1 (by simp [keyRevoked])
  · exact (api_key_auth_decision hmacC "pep" "lk_exp" dbKeys 100 keyExpired projP
      (by decide) rfl rfl).2.2.1 rfl 10 rfl (by decide)
  · exact (api_key_auth_decision hmacC "pep" "lk_live" dbKeys 100 keyLive projP
      (by decide) rfl rfl).2.2.2 "lk_nope" (by decide) rfl

/-! ## C8 — API-key revocation is idempotent -/

/-- C8: after a successful revoke of an existing key, a second revoke by a
caller who still passes the project-admin check returns success (the
"already revoked" message) and returns the state entirely unchanged, so
`revoked_at` keeps the timestamp set by the first call. -/
theorem revoke_api_key_idempotent (db : DB) (apiKeyId : Nat) (u1 u2 : User)
    (now1 now2 : Int) (db1 : DB) (msg1 : String)
    (h1 : ApiKeys.revoke_api_key db apiKeyId u1 now1 = .ok (db1, msg1))
    (hauth : ∀ k, db1.apiKeys.find? (fun j => j.id == apiKeyId) = some k →
      ∃ p, Rbac.require_project_role db1 k.projectId u2 "admin" = .ok p) :
    ApiKeys.revoke_api_key db1 apiKeyId u2 now2 =
      .ok (db1, "API key already revoked") := by
  unfold ApiKeys.revoke_api_key at h1
  cases hfind : db.apiKeys.find? (fun k => k.id == apiKeyId) with
  | none => rw [hfind] at h1; exact absurd h1 (by simp)
  | some key =>
    rw [hfind] at h1
    dsimp only at h1
    cases hrole : Rbac.require_project_role db key.projectId u1 "admin" with
    | error e => rw [hrole] at h1; exact absurd h1 (by simp)
    | ok p =>
      rw [hrole] at h1
      dsimp only at h1
      have hq := List.find?_some hfind
      by_cases hrev : key.revokedAt.isSome = true
      · rw [if_pos hrev] at h1
        simp only [Except.ok.injEq, Prod.mk.injEq] at h1
        obtain ⟨hdb, _⟩ := h1
        subst hdb
        obtain ⟨p2, hp2⟩ := hauth key hfind
        unfold ApiKeys.revoke_api_key
        rw [hfind]
        dsimp only
        rw [hp2]
        dsimp only
        rw [if_pos hrev]
      · rw [if_neg hrev] at h1
        simp only [Except.ok.injEq, Prod.mk.injEq] at h1
        obtain ⟨hdb, _⟩ := h1
        have hfind1 : db1.apiKeys.find? (fun k => k.id == apiKeyId) =
            some { key with revokedAt := some now1 } := by
          rw [← hdb]
          exact find?_updateFirst_pos _ _ _ _ hfind hq
        obtain ⟨p2, hp2⟩ := hauth _ hfind1
        unfold ApiKeys.revoke_api_key
        rw [hfind1]
        dsimp only
        rw [hp2]
        simp

def keyLiveRevoked : ApiKey := { keyLive with revokedAt := some 50 }

/-- `dbKeys` after the first successful revocation of key 40 at time 50. -/
def dbKeys1 : DB :=
  { dbKeys with apiKeys := [keyLiveRevoked, keyRevoked, keyExpired] }

theorem revoke_api_key_idempotent_witness :
    ApiKeys.revoke_api_key dbKeys1 40 uOwner 60 =
      .ok (dbKeys1, "API key already revoked") :=
  revoke_api_key_idempotent dbKeys 40 uOwner uOwner 50 60 dbKeys1
    "API key revoked successfully" rfl
    (fun k hk => by
      have h0 : dbKeys1.apiKeys.find? (fun j => j.id == 40) =
          some keyLiveRevoked := rfl
      rw [h0] at hk
      injection hk with h
      subst h
      exact ⟨projP, rfl⟩)

/-! ## C5 — role strings are only validated for project members -/

/-- Result state of adding user 2 with the unknown role "superuser". -/
def dbSuper : DB :=
  { dbOwnership with
      orgMembers := [{ organizationId := 10, userId := 2, role := "superuser" }] }

/-- The invite row created with the unknown role "superuser". -/
def invSuper : OrganizationInvite :=
  OrgInvites.newInvite shaC 31 10 (OrgInvites.normalize_email "bob@example.com")
    "superuser" uOwner 0 "R1"

def dbSuperInv : DB := { dbOwnership with invites := [invSuper] }

/-- C5 counterexample: `add_member` and `create_invite` perform no role
validation — the org owner can persist the role string "superuser", which
is outside every enumerated role set, both as a membership role and as an
invite role, with no Invalid error. -/
theorem role_validation_cex :
    Orgs.add_member dbOwnership 10 2 "superuser" uOwner =
      .ok (dbSuper, "Member added") ∧
    dbSuper.orgMembers.map (fun m => m.role) = ["superuser"] ∧
    "superuser" ∉ (["member", "admin", "owner"] : List String) ∧
    OrgInvites.create_invite shaC dbOwnership 10 "bob@example.com" "superuser"
      uOwner 0 "R1" 31 = .ok (dbSuperInv, invSuper, "oi_R1") ∧
    invSuper.role = "superuser" :=
  ⟨rfl, rfl, by decide, rfl, rfl⟩

/-- C5 amended: only the project-member operations validate the role:
`add_project_member` and `update_project_member_role` reject every role
outside `{admin, member}` with 400 "Invalid role", while `add_member`
(organizations) and `create_invite` accept any role string and persist it
verbatim. -/
theorem role_validation_amended :
    (∀ db projectId targetUserId role u,
      role ≠ "admin" → role ≠ "member" →
      Projects.add_project_member db projectId targetUserId role u =
        .error ⟨400, "Invalid role"⟩) ∧
    (∀ db projectId userId role u,
      role ≠ "admin" → role ≠ "member" →
      Projects.update_project_member_role db projectId userId role u =
        .error ⟨400, "Invalid role"⟩) ∧
    (∀ db organizationId targetUserId role u db',
      Orgs.add_member db organizationId targetUserId role u =
        .ok (db', "Member added") →
      db'.orgMembers = db.orgMembers ++
        [{ organizationId := organizationId, userId := targetUserId,
           role := role }]) ∧
    (∀ sha256hex db organizationId email role u now rand newId db' inv tok,
      OrgInvites.create_invite sha256hex db organizationId email role u now
        rand newId = .ok (db', inv, tok) → inv.role = role) := by
  refine ⟨?_, ?_, ?_, ?_⟩
  · intro db projectId targetUserId role u h1 h2
    unfold Projects.add_project_member
    simp [h1, h2]
  · intro db projectId userId role u h1 h2
    unfold Projects.update_project_member_role
    simp [h1, h2]
  · intro db organizationId targetUserId role u db' h
    unfold Orgs.add_member at h
    cases hfind : db.organizations.find? (fun o => o.id == organizationId) with
    | none => rw [hfind] at h; exact absurd h (by simp)
    | some org =>
      rw [hfind] at h
      dsimp only at h
      by_cases hown : (org.ownerId != u.id) = true
      · rw [if_pos hown] at h; exact absurd h (by simp)
      · rw [if_neg hown] at h
        cases hmem : db.orgMembers.find? (fun m =>
            m.organizationId == organizationId && m.userId == targetUserId) with
        | some m => rw [hmem] at h; simp at h
        | none =>
          rw [hmem] at h
          simp only [Except.ok.injEq, Prod.mk.injEq] at h
          rw [← h.1]
  · intro sha256hex db organizationId email role u now rand newId db' inv tok h
    unfold OrgInvites.create_invite at h
    cases hrole : OrgInvites.require_org_role db organizationId u "admin" with
    | error e => rw [hrole] at h; exact absurd h (by simp)
    | ok org =>
      rw [hrole] at h
      dsimp only at h
      cases huser : db.users.find? (fun w =>
          w.email == OrgInvites.normalize_email email) with
      | some userRow =>
        rw [huser] at h
        dsimp only at h
        cases hmem : db.orgMembers.find? (fun m =>
            m.organizationId == organizationId && m.userId == userRow.id) with
        | some m => rw [hmem] at h; exact absurd h (by simp)
        | none =>
          rw [hmem] at h
          dsimp only at h
          cases hpend : db.invites.find?
              (OrgInvites.isPendingFor organizationId
                (OrgInvites.normalize_email email)) with
          | some w => rw [hpend] at h; exact absurd h (by simp)
          | none =>
            rw [hpend] at h
            simp only [Except.ok.injEq, Prod.mk.injEq] at h
            rw [← h.2.1]
            rfl
      | none =>
        rw [huser] at h
        dsimp only at h
        cases hpend : db.invites.find?
            (OrgInvites.isPendingFor organizationId
              (OrgInvites.normalize_email email)) with
        | some w => rw [hpend] at h; exact absurd h (by simp)
        | none =>
          rw [hpend] at h
          simp only [Except.ok.injEq, Prod.mk.injEq] at h
          rw [← h.2.1]
          rfl

theorem role_validation_amended_witness :
    Projects.add_project_member dbOwnership 20 2 "superuser" uOwner =
      .error ⟨400, "Invalid role"⟩ ∧
    Projects.update_project_member_role dbOwnership 20 2 "superuser" uOwner =
      .error ⟨400, "Invalid role"⟩ ∧
    dbSuper.orgMembers = dbOwnership.orgMembers ++
      [{ organizationId := 10, userId := 2, role := "superuser" }] ∧
    invSuper.role = "superuser" :=
  ⟨role_validation_amended.1 dbOwnership 20 2 "superuser" uOwner
     (by decide) (by decide),
   role_validation_amended.2.1 dbOwnership 20 2 "superuser" uOwner
     (by decide) (by decide),
   role_validation_amended.2.2.1 dbOwnership 10 2 "superuser" uOwner dbSuper
     rfl,
   role_validation_amended.2.2.2 shaC dbOwnership 10 "bob@example.com"
     "superuser" uOwner 0 "R1" 31 dbSuperInv invSuper "oi_R1" rfl⟩

/-! ## C6 — the invite token hash is unkeyed SHA-256, not a peppered HMAC -/

theorem create_invite_ok_inv (sha256hex : String → String) (db : DB)
    (organizationId : Nat) (email role : String) (u : User) (now : Int)
    (rand : String) (newId : Nat) (db' : DB) (inv : OrganizationInvite)
    (tok : String)
    (h : OrgInvites.create_invite sha256hex db organizationId email role u
      now rand newId = .ok (db', inv, tok)) :
    inv = OrgInvites.newInvite sha256hex newId organizationId
      (OrgInvites.normalize_email email) role u now rand ∧
    tok = "oi_" ++ rand ∧
    db' = { db with invites := db.invites ++ [inv] } ∧
    db.invites.find? (OrgInvites.isPendingFor organizationId
      (OrgInvites.normalize_email email)) = none := by
  unfold OrgInvites.create_invite at h
  cases hrole : OrgInvites.require_org_role db organizationId u "admin" with
  | error e => rw [hrole] at h; exact absurd h (by simp)
  | ok org =>
    rw [hrole] at h
    dsimp only at h
    cases huser : db.users.find? (fun w =>
        w.email == OrgInvites.normalize_email email) with
    | some userRow =>
      rw [huser] at h
      dsimp only at h
      cases hmem : db.orgMembers.find? (fun m =>
          m.organizationId == organizationId && m.userId == userRow.id) with
      | some m => rw [hmem] at h; exact absurd h (by simp)
      | none =>
        rw [hmem] at h
        dsimp only at h
        cases hpend : db.invites.find? (OrgInvites.isPendingFor organizationId
            (OrgInvites.normalize_email email)) with
        | some w => rw [hpend] at h; exact absurd h (by simp)
        | none =>
          rw [hpend] at h
          simp only [Except.ok.injEq, Prod.mk.injEq] at h
          obtain ⟨hdb, hinv, htok⟩ := h
          subst hinv
          subst htok
          subst hdb
          exact ⟨rfl, rfl, rfl, rfl⟩
    | none =>
      rw [huser] at h
      dsimp only at h
      cases hpend : db.invites.find? (OrgInvites.isPendingFor organizationId
          (OrgInvites.normalize_email email)) with
      | some w => rw [hpend] at h; exact absurd h (by simp)
      | none =>
        rw [hpend] at h
        simp only [Except.ok.injEq, Prod.mk.injEq] at h
        obtain ⟨hdb, hinv, htok⟩ := h
        subst hinv
        subst htok
        subst hdb
        exact ⟨rfl, rfl, rfl, rfl⟩

/-- The invite created in `dbOwnership` for bob with role "member". -/
def invMember : OrganizationInvite :=
  OrgInvites.newInvite shaC 31 10
    (OrgInvites.normalize_email "bob@example.com") "member" uOwner 0 "R1"

def dbMemberInv : DB := { dbOwnership with invites := [invMember] }

/-- C6 counterexample: running `create_invite` with generic hash
primitives stores `hash_token(token)` — the unkeyed SHA-256 stand-in
`shaC` applied to the token only — which differs from the peppered HMAC
digest `hash_api_key(pepper, token)` the claim prescribes; no server
secret enters the stored invite hash. -/
theorem invite_token_hash_unkeyed_cex :
    OrgInvites.create_invite shaC dbOwnership 10 "bob@example.com" "member"
      uOwner 0 "R1" 31 = .ok (dbMemberInv, invMember, "oi_R1") ∧
    invMember.tokenHash = "sha|oi_R1" ∧
    ApiKeys.hash_api_key hmacC "pep" "oi_R1" = "hmac|pep|oi_R1" ∧
    invMember.tokenHash ≠ ApiKeys.hash_api_key hmacC "pep" "oi_R1" :=
  ⟨rfl, rfl, rfl, by decide⟩

/-- C6 amended: the invite token hash stored at create and at rotate is
`hash_token(token)` — plain SHA-256 of the plaintext token, a function of
the token alone with no pepper argument; the server-held pepper is used
only by API-key hashing, where `hash_api_key` is HMAC(pepper, raw). -/
theorem invite_token_hash_unkeyed :
    (∀ sha256hex db organizationId email role u now rand newId db' inv tok,
      OrgInvites.create_invite sha256hex db organizationId email role u now
        rand newId = .ok (db', inv, tok) →
      inv.tokenHash = OrgInvites.hash_token sha256hex tok) ∧
    (∀ sha256hex inv now rand,
      ((OrgInvites.rotate_token sha256hex inv now rand).1).tokenHash =
        OrgInvites.hash_token sha256hex
          (OrgInvites.rotate_token sha256hex inv now rand).2) ∧
    (∀ hmacSha256 pepper raw,
      ApiKeys.hash_api_key hmacSha256 pepper raw = hmacSha256 pepper raw) := by
  refine ⟨?_, fun _ _ _ _ => rfl, fun _ _ _ => rfl⟩
  intro sha256hex db organizationId email role u now rand newId db' inv tok h
  obtain ⟨hinv, htok, -, -⟩ := create_invite_ok_inv sha256hex db
    organizationId email role u now rand newId db' inv tok h
  rw [hinv, htok]
  rfl

theorem invite_token_hash_unkeyed_witness :
    invMember.tokenHash = OrgInvites.hash_token shaC "oi_R1" ∧
    ((OrgInvites.rotate_token shaC invBob 0 "R2").1).tokenHash =
      OrgInvites.hash_token shaC (OrgInvites.rotate_token shaC invBob 0 "R2").2 ∧
    ApiKeys.hash_api_key hmacC "pep" "rawkey" = hmacC "pep" "rawkey" :=
  ⟨invite_token_hash_unkeyed.1 shaC dbOwnership 10 "bob@example.com" "member"
     uOwner 0 "R1" 31 dbMemberInv invMember "oi_R1" rfl,
   invite_token_hash_unkeyed.2.1 shaC invBob 0 "R2",
   invite_token_hash_unkeyed.2.2 hmacC "pep" "rawkey"⟩

/-! ## C7 — at most one pending invite per (organization, email) -/

/-- Number of pending invites stored for `(organizationId, email)`. -/
def pendingCount (db : DB) (organizationId : Nat) (email : String) : Nat :=
  (db.invites.filter (OrgInvites.isPendingFor organizationId email)).length

/-- The single-pending-invite invariant of the spec. -/
def PendingUnique (db : DB) : Prop :=
  ∀ organizationId email, pendingCount db organizationId email ≤ 1

theorem resend_invite_ok_inv (sha256hex : String → String) (db : DB)
    (inviteId : Nat) (u : User) (now : Int) (rand : String) (db' : DB)
    (inv' : OrganizationInvite) (tok : String)
    (h : OrgInvites.resend_invite sha256hex db inviteId u now rand =
      .ok (db', inv', tok)) :
    db'.invites = updateFirst (fun i => i.id == inviteId)
      (fun i => (OrgInvites.rotate_token sha256hex i now rand).1)
      db.invites := by
  unfold OrgInvites.resend_invite at h
  cases hfind : db.invites.find? (fun i => i.id == inviteId) with
  | none => rw [hfind] at h; exact absurd h (by simp)
  | some inv =>
    rw [hfind] at h
    dsimp only at h
    cases hrole : OrgInvites.require_org_role db inv.organizationId u "admin" with
    | error e => rw [hrole] at h; exact absurd h (by simp)
    | ok org =>
      rw [hrole] at h
      dsimp only at h
      split at h
      · exact absurd h (by simp)
      · simp only [Except.ok.injEq, Prod.mk.injEq] at h
        rw [← h.1]

theorem accept_invite_ok_inv (sha256hex : String → String) (db : DB)
    (inviteId : Nat) (token : String) (u : User) (now : Int) (db' : DB)
    (inv' : OrganizationInvite)
    (h : OrgInvites.accept_invite sha256hex db inviteId token u now =
      .ok (db', inv')) :
    db'.invites = updateFirst (fun i => i.id == inviteId)
      (OrgInvites.acceptUpdate u now) db.invites := by
  unfold OrgInvites.accept_invite at h
  cases hfind : db.invites.find? (fun i => i.id == inviteId) with
  | none => rw [hfind] at h; exact absurd h (by simp)
  | some inv =>
    rw [hfind] at h
    dsimp only at h
    split at h
    · exact absurd h (by simp)
    · split at h
      · exact absurd h (by simp)
      · split at h
        · exact absurd h (by simp)
        · split at h
          · exact absurd h (by simp)
          · simp only [Except.ok.injEq, Prod.mk.injEq] at h
            rw [← h.1]

theorem revoke_invite_ok_inv (db : DB) (inviteId : Nat) (u : User)
    (now : Int) (db' : DB) (inv' : OrganizationInvite)
    (h : OrgInvites.revoke_invite db inviteId u now = .ok (db', inv')) :
    db'.invites = updateFirst (fun i => i.id == inviteId)
      (fun i => { i with status := "revoked", revokedAt := some now })
      db.invites := by
  unfold OrgInvites.revoke_invite at h
  cases hfind : db.invites.find? (fun i => i.id == inviteId) with
  | none => rw [hfind] at h; exact absurd h (by simp)
  | some inv =>
    rw [hfind] at h
    dsimp only at h
    cases hrole : OrgInvites.require_org_role db inv.organizationId u "admin" with
    | error e => rw [hrole] at h; exact absurd h (by simp)
    | ok org =>
      rw [hrole] at h
      dsimp only at h
      split at h
      · exact absurd h (by simp)
      · simp only [Except.ok.injEq, Prod.mk.injEq] at h
        rw [← h.1]

theorem pendingUnique_of_updateFirst (db db' : DB)
    (q : OrganizationInvite → Bool)
    (f : OrganizationInvite → OrganizationInvite)
    (hshape : db'.invites = updateFirst q f db.invites)
    (hf : ∀ o e x, OrgInvites.isPendingFor o e (f x) = true →
      OrgInvites.isPendingFor o e x = true)
    (hu : PendingUnique db) : PendingUnique db' := by
  intro o e
  unfold pendingCount
  rw [hshape]
  calc ((updateFirst q f db.invites).filter
          (OrgInvites.isPendingFor o e)).length
      ≤ (db.invites.filter (OrgInvites.isPendingFor o e)).length :=
        length_filter_updateFirst_le _ _ _ _ (hf o e)
    _ ≤ 1 := hu o e

theorem pendingUnique_create (sha256hex : String → String) (db : DB)
    (organizationId : Nat) (email role : String) (u : User) (now : Int)
    (rand : String) (newId : Nat) (db' : DB) (inv : OrganizationInvite)
    (tok : String)
    (h : OrgInvites.create_invite sha256hex db organizationId email role u
      now rand newId = .ok (db', inv, tok))
    (hu : PendingUnique db) : PendingUnique db' := by
  obtain ⟨hinv, -, hdb, hnone⟩ := create_invite_ok_inv sha256hex db
    organizationId email role u now rand newId db' inv tok h
  subst hdb
  intro o e
  unfold pendingCount
  show ((db.invites ++ [inv]).filter (OrgInvites.isPendingFor o e)).length ≤ 1
  rw [List.filter_append, List.length_append]
  by_cases hp : OrgInvites.isPendingFor o e inv = true
  · have ho : organizationId = o ∧ OrgInvites.normalize_email email = e := by
      rw [hinv] at hp
      unfold OrgInvites.isPendingFor OrgInvites.newInvite at hp
      simp at hp
      exact hp
    obtain ⟨ho1, ho2⟩ := ho
    subst ho1
    subst ho2
    rw [find?_eq_none_filter_nil _ _ hnone]
    simp [List.filter, hp]
  · have hp' : OrgInvites.isPendingFor o e inv = false := by simpa using hp
    simp only [List.filter, hp', List.length_nil]
    simpa using hu o e

/-- One successful invite-lifecycle operation (create, resend, accept or
revoke) performed by the route handlers. -/
inductive InviteOp : DB → DB → Prop
  | create (sha256hex : String → String) (organizationId : Nat)
      (email role : String) (u : User) (now : Int) (rand : String)
      (newId : Nat) (db db' : DB) (inv : OrganizationInvite) (tok : String) :
      OrgInvites.create_invite sha256hex db organizationId email role u now
        rand newId = .ok (db', inv, tok) → InviteOp db db'
  | resend (sha256hex : String → String) (inviteId : Nat) (u : User)
      (now : Int) (rand : String) (db db' : DB) (inv : OrganizationInvite)
      (tok : String) :
      OrgInvites.resend_invite sha256hex db inviteId u now rand =
        .ok (db', inv, tok) → InviteOp db db'
  | accept (sha256hex : String → String) (inviteId : Nat) (token : String)
      (u : User) (now : Int) (db db' : DB) (inv : OrganizationInvite) :
      OrgInvites.accept_invite sha256hex db inviteId token u now =
        .ok (db', inv) → InviteOp db db'
  | revoke (inviteId : Nat) (u : User) (now : Int) (db db' : DB)
      (inv : OrganizationInvite) :
      OrgInvites.revoke_invite db inviteId u now = .ok (db', inv) →
      InviteOp db db'

/-- States reachable from a store with no invites by the four
invite-lifecycle operations. -/
inductive InviteReachable : DB → Prop
  | init (db : DB) : db.invites = [] → InviteReachable db
  | step (db db' : DB) : InviteReachable db → InviteOp db db' →
      InviteReachable db'

theorem pendingUnique_step (db db' : DB) (hop : InviteOp db db')
    (hu : PendingUnique db) : PendingUnique db' := by
  cases hop with
  | create sha256hex organizationId email role u now rand newId d d' inv tok h =>
    exact pendingUnique_create sha256hex db organizationId email role u now
      rand newId db' inv tok h hu
  | resend sha256hex inviteId u now rand d d' inv tok h =>
    exact pendingUnique_of_updateFirst db db' _ _
      (resend_invite_ok_inv sha256hex db inviteId u now rand db' inv tok h)
      (fun o e x hx => hx) hu
  | accept sha256hex inviteId token u now d d' inv h =>
    refine pendingUnique_of_updateFirst db db' _ _
      (accept_invite_ok_inv sha256hex db inviteId token u now db' inv h)
      (fun o e x hx => ?_) hu
    exfalso
    simp [OrgInvites.isPendingFor, OrgInvites.acceptUpdate] at hx
  | revoke inviteId u now d d' inv h =>
    refine pendingUnique_of_updateFirst db db' _ _
      (revoke_invite_ok_inv db inviteId u now db' inv h)
      (fun o e x hx => ?_) hu
    exfalso
    simp [OrgInvites.isPendingFor] at hx

/-- C7: in every state reachable from an invite-free store by the invite
operations (create, resend, accept, revoke), at most one pending invite
exists per `(organization, email)` pair; and a create attempt by an
authorized caller for an email that is not already a member, while a
pending invite exists for that pair, fails with 409 Conflict — and, the
handlers being transactional (`Except.error` carries no state), changes
no state. -/
theorem pending_invite_unique :
    (∀ db, InviteReachable db → PendingUnique db) ∧
    (∀ sha256hex db organizationId email role u now rand newId org,
      OrgInvites.require_org_role db organizationId u "admin" = .ok org →
      (∀ userRow, db.users.find? (fun w =>
          w.email == OrgInvites.normalize_email email) = some userRow →
        db.orgMembers.find? (fun m =>
          m.organizationId == organizationId && m.userId == userRow.id) = none) →
      1 ≤ pendingCount db organizationId (OrgInvites.normalize_email email) →
      OrgInvites.create_invite sha256hex db organizationId email role u now
        rand newId = .error ⟨409, "Pending invite already exists"⟩) := by
  constructor
  · intro db h
    induction h with
    | init db hinv =>
      intro o e
      unfold pendingCount
      rw [hinv]
      simp
    | step db db' hr hop ih => exact pendingUnique_step db db' hop ih
  · intro sha256hex db organizationId email role u now rand newId org hrole
      hmem hcount
    cases hpend : db.invites.find? (OrgInvites.isPendingFor organizationId
        (OrgInvites.normalize_email email)) with
    | none =>
      exfalso
      have hfil := find?_eq_none_filter_nil _ _ hpend
      unfold pendingCount at hcount
      rw [hfil] at hcount
      simp at hcount
    | some w =>
      unfold OrgInvites.create_invite
      rw [hrole]
      dsimp only
      cases huser : db.users.find? (fun x =>
          x.email == OrgInvites.normalize_email email) with
      | some userRow =>
        dsimp only
        rw [hmem userRow huser]
        dsimp only
        rw [hpend]
      | none =>
        dsimp only
        rw [hpend]

theorem pending_invite_unique_witness :
    PendingUnique dbOwnership ∧
    OrgInvites.create_invite shaC dbInvite 10 "bob@example.com" "member"
      uOwner 0 "R9" 32 = .error ⟨409, "Pending invite already exists"⟩ := by
  constructor
  · exact pending_invite_unique.1 dbOwnership (InviteReachable.init dbOwnership rfl)
  · refine pending_invite_unique.2 shaC dbInvite 10 "bob@example.com"
      "member" uOwner 0 "R9" 32 orgAcme rfl ?_ (by decide)
    intro userRow hw
    have h0 : dbInvite.users.find? (fun w =>
        w.email == OrgInvites.normalize_email "bob@example.com") = none := rfl
    rw [h0] at hw
    exact absurd hw (by simp)
